import Mathlib

/-!
Verification of the fusion / field-mapping core of the fluxity-lambda-processor
repository against its natural-language specification.

The development shallow-embeds the relevant TypeScript/JavaScript source:
  * `src/src/config/field-mappings.ts` — the schema dictionary and field mapper
    (`FIELD_MAPPINGS`, `findFieldMapping`, `applyFieldMappings`);
  * the fusion engine (`FusionEngine`: `combine`, `mergeAccountingFields`,
    `performCrossValidation`, `calculateHybridConfidence`, `normalizeAmount`,
    `amountsMatch`, `datesMatch`, `stringsMatch`, `fieldsMatch`,
    `extractFieldFromTextract`, `extractFieldFromOpenAI`, `getFieldConfidence`).

JavaScript strings are modelled as `List Char`, JavaScript numbers as `ℚ`
(the arithmetic performed by the code stays well within exactly representable
decimal values; IEEE-754 rounding is not modelled), `null`/`undefined` as
explicit constructors, and thrown exceptions as `Except Unit`.
-/

namespace Fluxity

/-- JavaScript strings, modelled as lists of characters. -/
abbrev Str := List Char

/-- Shorthand turning a Lean string literal into the model's string type. -/
def str (s : String) : Str := s.data

/-- Whitespace recognised by `String.prototype.trim` (ASCII subset used here). -/
def isWS (c : Char) : Bool := c = ' ' || c = '\t' || c = '\n' || c = '\r'

/-- `String.prototype.toLowerCase` (ASCII). -/
def toLowerS (s : Str) : Str := s.map Char.toLower

/-- `String.prototype.toUpperCase` (ASCII). -/
def toUpperS (s : Str) : Str := s.map Char.toUpper

/-- `String.prototype.trim`. -/
def trimS (s : Str) : Str := ((s.dropWhile isWS).reverse.dropWhile isWS).reverse

/-- Does `needle` occur at the head of `hay`? (Helper for substring search.) -/
def headMatch : Str → Str → Bool
  | [], _ => true
  | _ :: _, [] => false
  | a :: as, b :: bs => a = b && headMatch as bs

/-- `hay.includes(needle)` for JavaScript strings. -/
def hasSub (hay needle : Str) : Bool :=
  match hay with
  | [] => needle.isEmpty
  | _ :: t => headMatch needle hay || hasSub t needle

/-- JavaScript string truthiness: the empty string is falsy. -/
def truthyS (s : Str) : Bool := !s.isEmpty

/-- Truthiness of a nullable string (`null` is falsy). -/
def truthyO : Option Str → Bool
  | none => false
  | some s => truthyS s

/-- `a || b` on nullable strings. -/
def jsOrO (a b : Option Str) : Option Str := if truthyO a then a else b

/-- `a || b` on strings. -/
def jsOrS (a b : Str) : Str := if truthyS a then a else b

/-- `s.replace(c, r)` with a one-character pattern: JavaScript's
`String.prototype.replace` with a string pattern rewrites only the first
occurrence. -/
def replaceFirst (c : Char) (r : Str) : Str → Str
  | [] => []
  | h :: t => if h = c then r ++ t else h :: replaceFirst c r t

/-- Numeric value of a decimal digit character. -/
def digitVal (c : Char) : ℕ := c.toNat - 48

/-- Value of a digit string read in base 10. -/
def natOfDigits (l : Str) : ℕ := l.foldl (fun n c => 10 * n + digitVal c) 0

/-- JavaScript `parseFloat`, restricted to the decimal fragment the code can
feed it (an optional sign, digits, an optional fractional part; parsing stops
at the first character that cannot extend the number).  Returns `none` for
`NaN`. -/
def jsParseFloat (s : Str) : Option ℚ :=
  let s0 := s.dropWhile isWS
  let signed : ℚ × Str :=
    match s0 with
    | '-' :: t => (-1, t)
    | '+' :: t => (1, t)
    | _ => (1, s0)
  let intDs := signed.2.takeWhile Char.isDigit
  let rest := signed.2.dropWhile Char.isDigit
  let fracDs :=
    match rest with
    | '.' :: t => t.takeWhile Char.isDigit
    | _ => []
  if intDs.isEmpty && fracDs.isEmpty then none
  else
    some (signed.1 * ((natOfDigits intDs : ℚ) +
      (natOfDigits fracDs : ℚ) / (10 : ℚ) ^ fracDs.length))

/-- The character class kept by `amount.replace(/[^\d.,]/g, '')`. -/
def keepAmountChar (c : Char) : Bool := c.isDigit || c = '.' || c = ','

/-- `FusionEngine.normalizeAmount`: strip everything but digits, `.` and `,`,
delete the first comma, `parseFloat`; `undefined` (here `none`) when the
input is falsy or parses to `NaN`. -/
def normalizeAmount (amount : Str) : Option ℚ :=
  if !truthyS amount then none
  else jsParseFloat (replaceFirst ',' [] (amount.filter keepAmountChar))

/-- `FusionEngine.amountsMatch`: both sides must normalise to a truthy number
(so `0` and `NaN` fail the guard), then match means relative difference below
1%. -/
def amountsMatch (amount1 amount2 : Str) : Bool :=
  match normalizeAmount amount1, normalizeAmount amount2 with
  | some num1, some num2 =>
    if num1 = 0 then false
    else if num2 = 0 then false
    else decide (|num1 - num2| / ((num1 + num2) / 2) < 1/100)
  | _, _ => false

/-- `FusionEngine.stringsMatch`: case-insensitive equality or either-way
containment of the trimmed strings. -/
def stringsMatch (str1 str2 : Str) : Bool :=
  let clean1 := trimS (toLowerS str1)
  let clean2 := trimS (toLowerS str2)
  clean1 = clean2 || hasSub clean1 clean2 || hasSub clean2 clean1

/-!  ## Dates

The source calls the host `Date` constructor.  We model it on the ISO
`YYYY-MM-DD` strings the pipeline nominally carries; every other string is
modelled as an Invalid Date (`none`).  `Date.prototype.toISOString` throws a
`RangeError` on an Invalid Date, which the model surfaces as `Except.error`.
-/

/-- `new Date(s)`, modelled on ISO `YYYY-MM-DD` input (parsed as a UTC
calendar day); anything else is an Invalid Date (`none`). -/
def jsNewDate (s : Str) : Option (ℕ × ℕ × ℕ) :=
  match s with
  | [y1, y2, y3, y4, '-', m1, m2, '-', d1, d2] =>
    if [y1, y2, y3, y4, m1, m2, d1, d2].all Char.isDigit then
      let y := natOfDigits [y1, y2, y3, y4]
      let m := natOfDigits [m1, m2]
      let d := natOfDigits [d1, d2]
      if 1 ≤ m && m ≤ 12 && 1 ≤ d && d ≤ 31 then some (y, m, d) else none
    else none
  | _ => none

/-- The character written when printing a decimal digit. -/
def digitChar (n : ℕ) : Char := Char.ofNat (48 + n)

/-- Two-digit zero-padded decimal rendering (as in `toISOString`). -/
def pad2 (n : ℕ) : Str := [digitChar (n / 10 % 10), digitChar (n % 10)]

/-- Four-digit zero-padded decimal rendering (as in `toISOString`). -/
def pad4 (n : ℕ) : Str :=
  [digitChar (n / 1000 % 10), digitChar (n / 100 % 10),
   digitChar (n / 10 % 10), digitChar (n % 10)]

/-- `date.toISOString().split('T')[0]` for a valid UTC calendar day. -/
def isoDateStr (ymd : ℕ × ℕ × ℕ) : Str :=
  pad4 ymd.1 ++ ['-'] ++ pad2 ymd.2.1 ++ ['-'] ++ pad2 ymd.2.2

/-- `FusionEngine.datesMatch`: normalise both sides with
`new Date(d).toISOString().split('T')[0]` and compare.  On an unparseable
date `toISOString` throws (`RangeError: Invalid time value`) — there is no
try/catch here, so the error propagates. -/
def datesMatch (date1 date2 : Str) : Except Unit Bool :=
  match jsNewDate date1 with
  | none => .error ()
  | some n1 =>
    match jsNewDate date2 with
    | none => .error ()
    | some n2 => .ok (decide (isoDateStr n1 = isoDateStr n2))

/-!  ## JavaScript values

The field mapper stores `null`, strings and numbers in the mapped record;
the generative source's per-field guesses are either plain values or
`{ value, confidence }` objects. -/

/-- A primitive JavaScript value as handled by this code. -/
inductive Prim where
  | nullV
  | undefV
  | strV (s : Str)
  | numV (q : ℚ)
deriving DecidableEq

/-- JavaScript truthiness on primitive values. -/
def truthyPrim : Prim → Bool
  | .nullV => false
  | .undefV => false
  | .strV s => truthyS s
  | .numV q => q ≠ 0

/-- A generative-source field entry: either a plain value or a
`{ value, confidence }` guess object (`confidence` optional). -/
inductive GVal where
  | prim (p : Prim)
  | guess (value : Prim) (confidence : Option ℚ)
deriving DecidableEq

/-- First-match association-list lookup (JavaScript object property read;
`none` models `undefined`). -/
def alookup {α : Type} : List (Str × α) → Str → Option α
  | [], _ => none
  | (k, v) :: t, key => if k = key then some v else alookup t key

/-- Object property read defaulting to `undefined`. -/
def jsGet (l : List (Str × Prim)) (k : Str) : Prim := (alookup l k).getD .undefV

/-- In-place update of an existing key (JavaScript assignment to a property
that is already present, as is always the case for the mapped record). -/
def assocSet (l : List (Str × Prim)) (k : Str) (v : Prim) : List (Str × Prim) :=
  l.map (fun p => if p.1 = k then (k, v) else p)

/-!  ## `src/src/config/field-mappings.ts` -/

/-- `FieldMapping.fieldType`. -/
inductive FType where
  | text
  | number
  | date
  | currency
deriving DecidableEq

/-- The optional `transform` attached to a `FieldMapping` (the source uses
exactly two helpers, `parseDate` and `parseAmount`). -/
inductive Transform where
  | dateTr
  | amountTr
deriving DecidableEq

/-- One entry of `FIELD_MAPPINGS`. -/
structure FieldMapping where
  targetField : Str
  sourceVariations : List Str
  fieldType : FType
  transform : Option Transform
deriving DecidableEq

/-- `parseDate` of `field-mappings.ts`: `new Date(value).toISOString()`
date part, falling back to the original string when parsing fails (the
`RangeError` is caught by the surrounding try/catch). -/
def parseDateFM (value : Str) : Str :=
  match jsNewDate value with
  | some ymd => isoDateStr ymd
  | none => value

/-- `parseAmount` of `field-mappings.ts`: keep `[0-9.-]`, `parseFloat`,
default `0` (`|| 0`) on `NaN`. -/
def parseAmountFM (value : Str) : ℚ :=
  (jsParseFloat (value.filter (fun c => c.isDigit || c = '.' || c = '-'))).getD 0

/-- Apply a mapping's transform (idempotent on text/currency fields, which
carry no transform). -/
def applyTransform (m : FieldMapping) (value : Str) : Prim :=
  match m.transform with
  | none => .strV value
  | some .dateTr => .strV (parseDateFM value)
  | some .amountTr => .numV (parseAmountFM value)

def fmInvoicingParty : FieldMapping :=
  { targetField := str "invoicing_party"
    sourceVariations := [str "vendor", str "vendor name", str "supplier",
      str "supplier name", str "company", str "from", str "bill from",
      str "seller", str "merchant", str "billed by", str "invoice from",
      str "vendor company", str "supplier company"]
    fieldType := .text, transform := none }

def fmSupplierInvoiceId : FieldMapping :=
  { targetField := str "supplier_invoice_id_by_invcg_party"
    sourceVariations := [str "invoice number", str "invoice #",
      str "invoice no", str "invoice id", str "document number",
      str "document #", str "doc number", str "bill number",
      str "reference number", str "reference #", str "inv #",
      str "inv number", str "invoice ref", str "bill #"]
    fieldType := .text, transform := none }

def fmDocumentDate : FieldMapping :=
  { targetField := str "document_date"
    sourceVariations := [str "invoice date", str "date", str "issue date",
      str "document date", str "bill date", str "created date", str "dated",
      str "invoice issued", str "date of invoice", str "billing date"]
    fieldType := .date, transform := some .dateTr }

def fmPostingDate : FieldMapping :=
  { targetField := str "posting_date"
    sourceVariations := [str "posting date", str "post date",
      str "received date", str "entry date", str "accounting date",
      str "book date"]
    fieldType := .date, transform := some .dateTr }

def fmGrossAmount : FieldMapping :=
  { targetField := str "invoice_gross_amount"
    sourceVariations := [str "total", str "total amount", str "grand total",
      str "amount due", str "total due", str "balance due",
      str "invoice total", str "gross amount", str "total payable",
      str "amount payable", str "final amount", str "net payable",
      str "payment due", str "total invoice amount"]
    fieldType := .number, transform := some .amountTr }

def fmItemAmount : FieldMapping :=
  { targetField := str "supplier_invoice_item_amount"
    sourceVariations := [str "subtotal", str "sub total", str "net amount",
      str "net total", str "pre-tax amount", str "amount before tax",
      str "goods total", str "services total", str "line items total",
      str "items total"]
    fieldType := .number, transform := some .amountTr }

def fmItemText : FieldMapping :=
  { targetField := str "supplier_invoice_item_text"
    sourceVariations := [str "description", str "line items", str "items",
      str "goods/services", str "product description",
      str "service description", str "details", str "item description",
      str "billing items"]
    fieldType := .text, transform := none }

def fmCurrency : FieldMapping :=
  { targetField := str "document_currency"
    sourceVariations := [str "currency", str "ccy", str "curr",
      str "currency code", str "invoice currency", str "payment currency",
      str "denomination"]
    fieldType := .currency, transform := none }

def fmTaxCode : FieldMapping :=
  { targetField := str "tax_code"
    sourceVariations := [str "tax", str "tax rate", str "tax %", str "vat",
      str "vat rate", str "sales tax", str "tax percentage", str "gst",
      str "tax code"]
    fieldType := .text, transform := none }

def fmAssignmentReference : FieldMapping :=
  { targetField := str "assignment_reference"
    sourceVariations := [str "reference", str "ref", str "po number",
      str "purchase order", str "po #", str "order number", str "order #",
      str "contract #", str "contract number", str "project number",
      str "project #", str "customer reference"]
    fieldType := .text, transform := none }

def fmHeaderText : FieldMapping :=
  { targetField := str "accounting_document_header_text"
    sourceVariations := [str "memo", str "notes", str "comments",
      str "header text", str "description", str "invoice description",
      str "remarks"]
    fieldType := .text, transform := none }

/-- `FIELD_MAPPINGS`, in declaration order. -/
def FIELD_MAPPINGS : List FieldMapping :=
  [fmInvoicingParty, fmSupplierInvoiceId, fmDocumentDate, fmPostingDate,
   fmGrossAmount, fmItemAmount, fmItemText, fmCurrency, fmTaxCode,
   fmAssignmentReference, fmHeaderText]

/-- Key normalisation used by `findFieldMapping`:
`extractedKey.toLowerCase().trim()`. -/
def normalizeKey (extractedKey : Str) : Str := trimS (toLowerS extractedKey)

/-- The bidirectional containment test of `findFieldMapping`. -/
def variationMatches (normalizedKey variation : Str) : Bool :=
  hasSub normalizedKey variation || hasSub variation normalizedKey

/-- `findFieldMapping`: first dictionary entry with a variation contained in
the normalised key or containing it. -/
def findFieldMapping (extractedKey : Str) : Option FieldMapping :=
  let normalizedKey := normalizeKey extractedKey
  FIELD_MAPPINGS.find? fun m =>
    m.sourceVariations.any fun v => variationMatches normalizedKey v

/-- One entry of `mappingDetails`. -/
structure MappingDetail where
  sourceKey : Str
  targetField : Str
  value : Prim
  confidence : ℚ
deriving DecidableEq

/-- The record returned by `applyFieldMappings`. -/
structure FMResult where
  mapped : List (Str × Prim)
  unmapped : List (Str × Str)
  mappingDetails : List MappingDetail
deriving DecidableEq

/-- Every target field initialised to `null`. -/
def initMapped : List (Str × Prim) :=
  FIELD_MAPPINGS.map fun m => (m.targetField, .nullV)

/-- The body of the `applyFieldMappings` loop for one key-value pair. -/
def fmStep (st : FMResult) (kv : Str × Str) : FMResult :=
  match findFieldMapping kv.1 with
  | some m =>
    let transformedValue := applyTransform m kv.2
    if jsGet st.mapped m.targetField = .nullV then
      { st with
        mapped := assocSet st.mapped m.targetField transformedValue
        mappingDetails := st.mappingDetails ++
          [⟨kv.1, m.targetField, transformedValue, 0.95⟩] }
    else st
  | none => { st with unmapped := st.unmapped ++ [kv] }

/-- `applyFieldMappings`: fold the loop body over the extracted pairs in
input order, starting from the all-`null` record. -/
def applyFieldMappings (extractedData : List (Str × Str)) : FMResult :=
  extractedData.foldl fmStep ⟨initMapped, [], []⟩

/-!  ## The fusion engine's inputs

`TextractResult` / `OpenAIResult` keep the components the modelled logic
reads; untouched pass-through members (`tables`, `lineItems`,
`textract_raw`, `business_rules`, …) are elided.  Per the external
interface, `keyValuePairs` values and the generative extraction's candidate
values for the cross-validated keys are strings; the generative
`accounting_fields` entries are `GVal`s. -/

/-- The deterministic (Textract) extraction result. -/
structure TextractResult where
  confidence : ℚ
  text : Str
  keyValuePairs : List (Str × Str)
deriving DecidableEq

/-- The generative result's `extracted_data` object: its string-valued
top-level entries plus the optional `accounting_fields` member. -/
structure EData where
  fields : List (Str × Str)
  accounting_fields : Option (List (Str × GVal))
deriving DecidableEq

/-- The generative (OpenAI) extraction result. -/
structure OpenAIResult where
  confidence : ℚ
  text : Str
  extracted_data : Option EData
  total_cost : Option ℚ
deriving DecidableEq

/-- The alias table of `extractFieldFromTextract`. -/
def textractAliases (fieldName : Str) : List Str :=
  if fieldName = str "invoice_number" then
    [str "Invoice Number", str "Invoice #", str "Number", str "Doc Number"]
  else if fieldName = str "invoice_date" then
    [str "Invoice Date", str "Date", str "Issue Date"]
  else if fieldName = str "due_date" then
    [str "Due Date", str "Payment Due"]
  else if fieldName = str "vendor_name" then
    [str "Vendor", str "Company", str "From", str "Supplier"]
  else if fieldName = str "total_amount" then
    [str "Total", str "Amount Due", str "Grand Total"]
  else if fieldName = str "subtotal" then
    [str "Subtotal", str "Sub Total"]
  else if fieldName = str "tax_amount" then
    [str "Tax", str "Sales Tax", str "VAT"]
  else if fieldName = str "currency" then
    [str "Currency", str "CCY"]
  else [fieldName]

/-- Inner loop of `extractFieldFromTextract`: first key-value pair whose
lower-cased key contains the lower-cased alias. -/
def findKV (kvs : List (Str × Str)) (key : Str) : Option Str :=
  match kvs with
  | [] => none
  | (kvKey, kvValue) :: t =>
    if hasSub (toLowerS kvKey) (toLowerS key) then some kvValue
    else findKV t key

/-- Outer loop of `extractFieldFromTextract` over the alias list. -/
def firstHit (keys : List Str) (kvs : List (Str × Str)) : Option Str :=
  match keys with
  | [] => none
  | key :: rest =>
    match findKV kvs key with
    | some v => some v
    | none => firstHit rest kvs

/-- `FusionEngine.extractFieldFromTextract`. -/
def extractFieldFromTextract (fieldName : Str) (result : TextractResult) :
    Option Str :=
  firstHit (textractAliases fieldName) result.keyValuePairs

/-- The `if (extracted[k]) return extracted[k]` cascade of
`extractFieldFromOpenAI`: first key whose value is truthy. -/
def tryKeys (fields : List (Str × Str)) : List Str → Option Str
  | [] => none
  | k :: rest =>
    match alookup fields k with
    | some v => if truthyS v then some v else tryKeys fields rest
    | none => tryKeys fields rest

/-- `FusionEngine.extractFieldFromOpenAI`: direct key, then the
underscore/case variant fallbacks. -/
def extractFieldFromOpenAI (fieldName : Str) (result : OpenAIResult) :
    Option Str :=
  match result.extracted_data with
  | none => none
  | some extracted =>
    tryKeys extracted.fields
      [fieldName,
       replaceFirst '_' [' '] fieldName,
       replaceFirst '_' [] fieldName,
       toLowerS fieldName,
       toUpperS fieldName]

/-- `FusionEngine.getFieldConfidence` on the Textract result (it has a
`textract_raw` member, so the raw confidence is returned). -/
def getFieldConfidenceT (result : TextractResult) : ℚ := result.confidence

/-- `FusionEngine.getFieldConfidence` on the OpenAI result:
`result.confidence || 0.8` (a zero confidence is falsy). -/
def getFieldConfidenceO (result : OpenAIResult) : ℚ :=
  if result.confidence = 0 then 0.8 else result.confidence

/-- `FusionEngine.fieldsMatch`: falsy on either side is an immediate
non-match; otherwise dispatch on the field name.  Only the date branch can
throw. -/
def fieldsMatch (value1 value2 : Option Str) (fieldType : Str) :
    Except Unit Bool :=
  if !truthyO value1 || !truthyO value2 then .ok false
  else
    let s1 := value1.getD []
    let s2 := value2.getD []
    if fieldType = str "invoice_date" || fieldType = str "due_date" then
      datesMatch s1 s2
    else if fieldType = str "total_amount" || fieldType = str "subtotal" ||
        fieldType = str "tax_amount" then
      .ok (amountsMatch s1 s2)
    else .ok (stringsMatch s1 s2)

/-- Origin tag of a validated field. -/
inductive VSource where
  | consensus
  | textract
  | openai
deriving DecidableEq

/-- One entry of `validatedFields`. -/
structure ValidatedField where
  textractValue : Option Str
  openaiValue : Option Str
  finalValue : Option Str
  confidence : ℚ
  source : VSource
deriving DecidableEq

/-- What `performCrossValidation` does with one of the common fields. -/
inductive Outcome where
  | skipped
  | agreed (vf : ValidatedField)
  | conflicted (vf : ValidatedField)
deriving DecidableEq

/-- The per-field body of the `performCrossValidation` loop. -/
def validateField (fieldName : Str) (textractResult : TextractResult)
    (openaiResult : OpenAIResult) : Except Unit Outcome :=
  let textractValue := extractFieldFromTextract fieldName textractResult
  let openaiValue := extractFieldFromOpenAI fieldName openaiResult
  if truthyO textractValue || truthyO openaiValue then
    match fieldsMatch textractValue openaiValue fieldName with
    | .error e => .error e
    | .ok true =>
      .ok (.agreed ⟨textractValue, openaiValue,
        jsOrO textractValue openaiValue, 0.95, .consensus⟩)
    | .ok false =>
      let textractConfidence := getFieldConfidenceT textractResult
      let openaiConfidence := getFieldConfidenceO openaiResult
      if openaiConfidence < textractConfidence then
        .ok (.conflicted ⟨textractValue, openaiValue, textractValue,
          textractConfidence * 0.8, .textract⟩)
      else
        .ok (.conflicted ⟨textractValue, openaiValue, openaiValue,
          openaiConfidence * 0.8, .openai⟩)
  else .ok .skipped

/-- The hard-coded list of cross-checkable fields. -/
def commonFields : List Str :=
  [str "invoice_number", str "invoice_date", str "due_date",
   str "vendor_name", str "total_amount", str "subtotal",
   str "tax_amount", str "currency"]

/-- Did the loop count this field as a comparison? -/
def isComparison : Outcome → Bool
  | .skipped => false
  | _ => true

/-- Did the loop count this field as an agreement? -/
def isAgreement : Outcome → Bool
  | .agreed _ => true
  | _ => false

/-- The result of `performCrossValidation`. -/
structure CVResult where
  agreementScore : ℚ
  conflictingFields : List Str
  validatedFields : List (Str × ValidatedField)
deriving DecidableEq

/-- Run an effectful body over a list, stopping at the first thrown error
(the semantics of a `forEach` whose body may throw). -/
def mapExcept {α β ε : Type} (g : α → Except ε β) : List α → Except ε (List β)
  | [] => .ok []
  | a :: t =>
    match g a with
    | .error e => .error e
    | .ok b =>
      match mapExcept g t with
      | .error e => .error e
      | .ok bs => .ok (b :: bs)

/-- All per-field outcomes, in loop order.  The loop mutates its
accumulators in order and a thrown error aborts the whole call, so the call
returns normally exactly when every field's body does. -/
def pcvOutcomes (textractResult : TextractResult)
    (openaiResult : OpenAIResult) : Except Unit (List (Str × Outcome)) :=
  mapExcept
    (fun f => (validateField f textractResult openaiResult).map fun o => (f, o))
    commonFields

/-- Assemble the returned record from the outcomes. -/
def outcomesToCV (os : List (Str × Outcome)) : CVResult :=
  let agreements := os.countP fun p => isAgreement p.2
  let totalComparisons := os.countP fun p => isComparison p.2
  { agreementScore :=
      if 0 < totalComparisons then
        (agreements : ℚ) / (totalComparisons : ℚ)
      else 0.5
    conflictingFields := os.filterMap fun p =>
      match p.2 with
      | .conflicted _ => some p.1
      | _ => none
    validatedFields := os.filterMap fun p =>
      match p.2 with
      | .agreed vf => some (p.1, vf)
      | .conflicted vf => some (p.1, vf)
      | .skipped => none }

/-- `FusionEngine.performCrossValidation`. -/
def performCrossValidation (textractResult : TextractResult)
    (openaiResult : OpenAIResult) : Except Unit CVResult :=
  (pcvOutcomes textractResult openaiResult).map outcomesToCV

/-- `FusionEngine.calculateHybridConfidence`. -/
def calculateHybridConfidence (textractConf openaiConf agreementScore : ℚ) :
    ℚ :=
  min (textractConf * 0.6 + openaiConf * 0.4 + agreementScore * 0.1) 1

/-!  ## The merge step -/

/-- Origin tag of a merged accounting field. -/
inductive MSource where
  | directMapping
  | openai
  | noneSrc
deriving DecidableEq

/-- One merged accounting field. -/
structure Merged where
  value : GVal
  confidence : ℚ
  source : MSource
deriving DecidableEq

/-- `openaiFields[field]?.value || openaiFields[field]`: a guess object
yields its `value` member when truthy and otherwise the object itself; a
plain entry has no `value` member, so `undefined || entry` yields the entry
(`null` included). -/
def openaiValueOf : Option GVal → GVal
  | none => .prim .undefV
  | some (.prim p) => .prim p
  | some (.guess v c) => if truthyPrim v then .prim v else .guess v c

/-- `openaiFields[field]?.confidence || 0.8` (a zero confidence is falsy). -/
def openaiConfOf : Option GVal → ℚ
  | some (.guess _ (some c)) => if c = 0 then 0.8 else c
  | _ => 0.8

/-- Is this merged candidate `null` or `undefined` (the `!== null &&
!== undefined` test of the merge)? -/
def isNullish : GVal → Bool
  | .prim .nullV => true
  | .prim .undefV => true
  | _ => false

/-- The per-field body of the `mergeAccountingFields` loop. -/
def mergeField (directMapped : List (Str × Prim))
    (openaiFields : List (Str × GVal)) (field : Str) : Merged :=
  let directValue := jsGet directMapped field
  let entry := alookup openaiFields field
  let openaiValue := openaiValueOf entry
  if directValue ≠ .nullV ∧ directValue ≠ .undefV then
    { value := .prim directValue, confidence := 0.95,
      source := .directMapping }
  else if !isNullish openaiValue then
    { value := openaiValue, confidence := openaiConfOf entry,
      source := .openai }
  else
    { value := .prim .nullV, confidence := 0, source := .noneSrc }

/-- Union of the two key sets in first-appearance order (a JavaScript `Set`
built from the concatenated key arrays). -/
def dedupFirst (l : List Str) : List Str :=
  l.foldl (fun acc k => if k ∈ acc then acc else acc ++ [k]) []

/-- `FusionEngine.mergeAccountingFields`. -/
def mergeAccountingFields (directMapped : List (Str × Prim))
    (openaiFields : List (Str × GVal)) : List (Str × Merged) :=
  (dedupFirst (directMapped.map Prod.fst ++ openaiFields.map Prod.fst)).map
    fun f => (f, mergeField directMapped openaiFields f)

/-- `FusionEngine.extractBusinessLogic`, restricted to the member the merge
consumes (`accounting_fields`; the other members are pass-through). -/
def extractBusinessLogic (openaiResult : OpenAIResult) :
    List (Str × GVal) :=
  match openaiResult.extracted_data with
  | some extracted => extracted.accounting_fields.getD []
  | none => []

/-!  ## `FusionEngine.combine` -/

/-- One entry of the mapping audit trail. -/
structure TrailEntry where
  sourceKey : Str
  sourceValue : Option Str
  targetField : Str
  mappedValue : Prim
  confidence : ℚ
deriving DecidableEq

/-- The hybrid result, restricted to the members the modelled logic
computes (pass-through members such as `tables`, `lineItems`,
`normalizedData` and the raw payloads are elided; none of them can throw
for the string-typed inputs modelled here). -/
structure HybridResult where
  text : Str
  confidence : ℚ
  keyValuePairs : List (Str × Str)
  accounting_fields : List (Str × Merged)
  mapped : List (Str × Prim)
  unmapped : List (Str × Str)
  mappingDetails : List MappingDetail
  mappingTrail : List TrailEntry
  crossValidation : CVResult
  textract_confidence : ℚ
  openai_confidence : ℚ
  total_cost : ℚ
  textract_cost : ℚ
  openai_cost : ℚ
deriving DecidableEq

/-- `FusionEngine.calculateTextractCost` (a flat per-document estimate). -/
def calculateTextractCost (_result : TextractResult) : ℚ := 0.065

/-- `FusionEngine.combine`: field mapping, cross-validation, confidence,
text combination, merge, costs.  The cross-validation step can throw, and
nothing here catches — the error propagates out of `combine`. -/
def combine (textractResult : TextractResult)
    (openaiResult : OpenAIResult) : Except Unit HybridResult :=
  let fm := applyFieldMappings textractResult.keyValuePairs
  let mappingTrail : List TrailEntry := fm.mappingDetails.map fun d =>
    ⟨d.sourceKey, alookup textractResult.keyValuePairs d.sourceKey,
     d.targetField, d.value, d.confidence⟩
  match performCrossValidation textractResult openaiResult with
  | .error e => .error e
  | .ok crossValidation =>
    let hybridConfidence := calculateHybridConfidence
      textractResult.confidence openaiResult.confidence
      crossValidation.agreementScore
    let combinedText := jsOrS textractResult.text openaiResult.text
    let accountingFields := extractBusinessLogic openaiResult
    let mergedAccountingFields :=
      mergeAccountingFields fm.mapped accountingFields
    let textractCost := calculateTextractCost textractResult
    let openaiCost := openaiResult.total_cost.getD 0
    .ok
      { text := combinedText
        confidence := hybridConfidence
        keyValuePairs := textractResult.keyValuePairs
        accounting_fields := mergedAccountingFields
        mapped := fm.mapped
        unmapped := fm.unmapped
        mappingDetails := fm.mappingDetails
        mappingTrail := mappingTrail
        crossValidation := crossValidation
        textract_confidence := textractResult.confidence
        openai_confidence := openaiResult.confidence
        total_cost := textractCost + openaiCost
        textract_cost := textractCost
        openai_cost := openaiCost }

/-!  ## Concrete instances used by the claim theorems -/

/-- A Textract result whose only key-value pair carries an unparseable
date. -/
def exTextractDate : TextractResult :=
  { confidence := 0.9, text := str "t"
    keyValuePairs := [(str "Invoice Date", str "garbage")] }

/-- A generative result supplying a well-formed `invoice_date` candidate. -/
def exOpenaiDate : OpenAIResult :=
  { confidence := 0.9, text := []
    extracted_data := some
      { fields := [(str "invoice_date", str "2024-01-15")]
        accounting_fields := none }
    total_cost := none }

/-- An empty deterministic source. -/
def exTextractEmpty : TextractResult :=
  { confidence := 0.5, text := [], keyValuePairs := [] }

/-- An empty generative source. -/
def exOpenaiEmpty : OpenAIResult :=
  { confidence := 0.5, text := [], extracted_data := none,
    total_cost := none }

/-- An empty deterministic source with confidence 0.9. -/
def exTextractEmpty9 : TextractResult :=
  { confidence := 0.9, text := [], keyValuePairs := [] }

/-- A generative source supplying only an `invoice_number` candidate. -/
def exOpenaiInvNum : OpenAIResult :=
  { confidence := 0.9, text := []
    extracted_data := some
      { fields := [(str "invoice_number", str "INV-1")]
        accounting_fields := none }
    total_cost := none }

/-- A deterministic source naming one vendor. -/
def exTextractVendor : TextractResult :=
  { confidence := 0.9, text := []
    keyValuePairs := [(str "Vendor", str "ABC Corp")] }

/-- A generative source naming a different vendor, at lower confidence. -/
def exOpenaiVendor : OpenAIResult :=
  { confidence := 0.5, text := []
    extracted_data := some
      { fields := [(str "vendor_name", str "XYZ Ltd")]
        accounting_fields := none }
    total_cost := none }

/-- The cross-validation record produced for the vendor conflict. -/
def exCVVendor : CVResult :=
  { agreementScore := 0
    conflictingFields := [str "vendor_name"]
    validatedFields := [(str "vendor_name",
      ⟨some (str "ABC Corp"), some (str "XYZ Ltd"), some (str "ABC Corp"),
       0.72, .textract⟩)] }

/-- A deterministic source reporting a zero total. -/
def exTextractZero : TextractResult :=
  { confidence := 0.9, text := []
    keyValuePairs := [(str "Total", str "0.00")] }

/-- A generative source reporting the same zero total. -/
def exOpenaiZero : OpenAIResult :=
  { confidence := 0.9, text := []
    extracted_data := some
      { fields := [(str "total_amount", str "0.00")]
        accounting_fields := none }
    total_cost := none }

/-!  ## Helper lemmas -/

theorem headMatch_refl (l : Str) : headMatch l l = true := by
  induction l with
  | nil => rfl
  | cons h t ih => simp [headMatch, ih]

theorem hasSub_refl (l : Str) : hasSub l l = true := by
  cases l with
  | nil => rfl
  | cons h t => simp [hasSub, headMatch_refl]

theorem mapExcept_ok_mem {α β ε : Type} {g : α → Except ε β} :
    ∀ {l : List α} {os : List β} {a : α} {b : β},
      mapExcept g l = .ok os → a ∈ l → g a = .ok b → b ∈ os := by
  intro l
  induction l with
  | nil => intro os a b _ ha; cases ha
  | cons h t ih =>
    intro os a b hok ha hb
    rw [mapExcept] at hok
    cases hg : g h with
    | error e => rw [hg] at hok; cases hok
    | ok b0 =>
      rw [hg] at hok
      cases ht : mapExcept g t with
      | error e => rw [ht] at hok; cases hok
      | ok bs =>
        rw [ht] at hok
        cases hok
        rcases List.mem_cons.1 ha with rfl | hmem
        · rw [hg] at hb; cases hb; exact List.mem_cons_self _ _
        · exact List.mem_cons_of_mem _ (ih ht hmem hb)

theorem mapExcept_congr_ok {α β ε : Type} {g : α → Except ε β} {h : α → β} :
    ∀ {l : List α}, (∀ a ∈ l, g a = .ok (h a)) →
      mapExcept g l = .ok (l.map h) := by
  intro l
  induction l with
  | nil => intro _; rfl
  | cons x t ih =>
    intro hall
    rw [mapExcept, hall x (List.mem_cons_self _ _),
      ih fun a ha => hall a (List.mem_cons_of_mem _ ha), List.map_cons]

theorem alookup_isSome_iff {α : Type} (l : List (Str × α)) (key : Str) :
    (alookup l key).isSome ↔ key ∈ l.map Prod.fst := by
  induction l with
  | nil =>
    rw [alookup, List.map_nil]
    exact ⟨fun h => (by cases h), fun h => (by cases h)⟩
  | cons p t ih =>
    obtain ⟨k, v⟩ := p
    rw [alookup, List.map_cons, List.mem_cons]
    by_cases hk : k = key
    · rw [if_pos hk]
      exact ⟨fun _ => Or.inl hk.symm, fun _ => rfl⟩
    · rw [if_neg hk, ih]
      exact ⟨Or.inr, fun h => h.elim (fun h1 => absurd h1.symm hk) id⟩

theorem alookup_assocSet_self :
    ∀ {l : List (Str × Prim)} {k : Str} {w v : Prim},
      alookup l k = some w → alookup (assocSet l k v) k = some v := by
  intro l
  induction l with
  | nil => intro k w v h; cases h
  | cons p t ih =>
    intro k w v h
    obtain ⟨k0, v0⟩ := p
    rw [assocSet, List.map_cons]
    by_cases hk : k0 = k
    · subst hk
      rw [show (if (k0, v0).1 = k0 then (k0, v) else (k0, v0)) = (k0, v)
          from if_pos rfl]
      rw [alookup, if_pos rfl]
    · rw [show (if (k0, v0).1 = k then (k, v) else (k0, v0)) = (k0, v0)
          from if_neg hk]
      rw [alookup, if_neg hk]
      rw [alookup, if_neg hk] at h
      exact ih h

theorem assocSet_keys (l : List (Str × Prim)) (k : Str) (v : Prim) :
    (assocSet l k v).map Prod.fst = l.map Prod.fst := by
  rw [assocSet, List.map_map]
  refine List.map_congr_left fun p _ => ?_
  by_cases hp : p.1 = k
  · simp [hp]
  · simp [hp]

theorem fmStep_mapped_keys (st : FMResult) (kv : Str × Str) :
    (fmStep st kv).mapped.map Prod.fst = st.mapped.map Prod.fst := by
  rw [fmStep]
  cases findFieldMapping kv.1 with
  | none => rfl
  | some m =>
    by_cases hm : jsGet st.mapped m.targetField = .nullV
    · simp [hm, assocSet_keys]
    · simp [hm]

theorem foldl_fmStep_mapped_keys (l : List (Str × Str)) (st : FMResult) :
    (l.foldl fmStep st).mapped.map Prod.fst = st.mapped.map Prod.fst := by
  induction l generalizing st with
  | nil => rfl
  | cons kv t ih => rw [List.foldl_cons, ih, fmStep_mapped_keys]

theorem alookup_init_targets {α : Type} (mk : FieldMapping → α) :
    ∀ (L : List FieldMapping) (m : FieldMapping), m ∈ L →
      alookup (L.map fun m0 => (m0.targetField, mk m0)) m.targetField =
        some (mk m) ∨
      ∃ m1 ∈ L, alookup (L.map fun m0 => (m0.targetField, mk m0))
        m.targetField = some (mk m1) := by
  intro L
  induction L with
  | nil => intro m hm; cases hm
  | cons h t ih =>
    intro m hm
    by_cases hk : h.targetField = m.targetField
    · right
      exact ⟨h, List.mem_cons_self _ _, by simp [alookup, hk]⟩
    · rcases List.mem_cons.1 hm with rfl | hmem
      · exact absurd rfl hk
      · rcases ih m hmem with h1 | ⟨m1, hm1, h1⟩
        · left; simpa [alookup, hk] using h1
        · right
          exact ⟨m1, List.mem_cons_of_mem _ hm1, by simpa [alookup, hk] using h1⟩

theorem alookup_initMapped_of_mem {m : FieldMapping}
    (hm : m ∈ FIELD_MAPPINGS) :
    alookup initMapped m.targetField = some .nullV := by
  rcases alookup_init_targets (fun _ => Prim.nullV) FIELD_MAPPINGS m hm with
    h | ⟨m1, _, h⟩ <;> exact h

theorem applyTransform_ne_null (m : FieldMapping) (v : Str) :
    applyTransform m v ≠ .nullV := by
  rw [applyTransform]
  rcases m.transform with _ | tr
  · simp
  · cases tr <;> simp

/-!  ## Claim theorems -/

/-- C6.  `calculateHybridConfidence` returns exactly
`min(0.6*confA + 0.4*confB + 0.1*agreementScore, 1.0)`; for inputs in
`[0,1]` the result lies in `[0,1]`; and holding `confA`, `confB` fixed the
score is monotone in the agreement score
(`score(confA, confB, 0) ≤ score(confA, confB, 1)`).  The function is a
pure total function of its three arguments by construction. -/
theorem calculateHybridConfidence_spec (confA confB agreementScore : ℚ) :
    calculateHybridConfidence confA confB agreementScore =
      min (0.6 * confA + 0.4 * confB + 0.1 * agreementScore) 1 ∧
    (0 ≤ confA → confA ≤ 1 → 0 ≤ confB → confB ≤ 1 →
      0 ≤ agreementScore → agreementScore ≤ 1 →
      0 ≤ calculateHybridConfidence confA confB agreementScore ∧
        calculateHybridConfidence confA confB agreementScore ≤ 1) ∧
    calculateHybridConfidence confA confB 0 ≤
      calculateHybridConfidence confA confB 1 := by
  refine ⟨?_, ?_, ?_⟩
  · rw [calculateHybridConfidence]
    congr 1
    ring
  · intro ha _ hb _ hs _
    rw [calculateHybridConfidence]
    constructor
    · rw [le_min_iff]
      constructor
      · nlinarith
      · norm_num
    · exact min_le_right _ _
  · rw [calculateHybridConfidence, calculateHybridConfidence]
    exact min_le_min (by nlinarith) le_rfl

/-- C6 witness: the bounds clause applied at `(0.5, 0.5, 0.5)`. -/
theorem calculateHybridConfidence_spec_witness :
    0 ≤ calculateHybridConfidence 0.5 0.5 0.5 ∧
      calculateHybridConfidence 0.5 0.5 0.5 ≤ 1 :=
  (calculateHybridConfidence_spec 0.5 0.5 0.5).2.1 (by norm_num)
    (by norm_num) (by norm_num) (by norm_num) (by norm_num) (by norm_num)

/-- C7.  Amount comparison: when both candidate strings normalise to
nonzero numbers `a`, `b`, the comparison succeeds exactly when the relative
difference `|a-b| / ((a+b)/2)` is below 1%; in particular `"100.00"` vs
`"100.50"` matches and `"100.00"` vs `"105.00"` does not. -/
theorem amountsMatch_spec :
    (∀ (s1 s2 : Str) (a b : ℚ), normalizeAmount s1 = some a →
      normalizeAmount s2 = some b → a ≠ 0 → b ≠ 0 →
      (amountsMatch s1 s2 = true ↔ |a - b| / ((a + b) / 2) < 1/100)) ∧
    amountsMatch (str "100.00") (str "100.50") = true ∧
    amountsMatch (str "100.00") (str "105.00") = false := by
  refine ⟨?_, by with_unfolding_all decide, by with_unfolding_all decide⟩
  intro s1 s2 a b h1 h2 ha hb
  simp only [amountsMatch, h1, h2]
  rw [if_neg ha, if_neg hb]
  exact decide_eq_true_iff

/-- C7 witness: the tolerance characterisation applied to `"100.00"` and
`"100.50"`. -/
theorem amountsMatch_spec_witness :
    normalizeAmount (str "100.00") = some 100 ∧
    normalizeAmount (str "100.50") = some (201/2) ∧
    ((100 : ℚ) ≠ 0) ∧ ((201/2 : ℚ) ≠ 0) ∧
    (amountsMatch (str "100.00") (str "100.50") = true ↔
      |(100 : ℚ) - 201/2| / ((100 + 201/2) / 2) < 1/100) :=
  ⟨by with_unfolding_all decide, by with_unfolding_all decide,
   by with_unfolding_all decide, by with_unfolding_all decide,
   amountsMatch_spec.1 _ _ 100 (201/2) (by with_unfolding_all decide)
     (by with_unfolding_all decide) (by with_unfolding_all decide)
     (by with_unfolding_all decide)⟩

/-- C10.  A zero or unparseable amount on either side makes the amount
comparison a non-match; in particular two sources both reporting a total of
`"0.00"` are recorded as a conflict, never as consensus. -/
theorem amountsMatch_zero_spec :
    (∀ s1 s2 : Str,
      normalizeAmount s1 = none ∨ normalizeAmount s1 = some 0 ∨
        normalizeAmount s2 = none ∨ normalizeAmount s2 = some 0 →
      amountsMatch s1 s2 = false) ∧
    validateField (str "total_amount") exTextractZero exOpenaiZero =
      .ok (.conflicted ⟨some (str "0.00"), some (str "0.00"),
        some (str "0.00"), 0.72, .openai⟩) := by
  constructor
  · intro s1 s2 h
    rw [amountsMatch]
    rcases h with h | h | h | h
    · rw [h]
    · rw [h]
      cases normalizeAmount s2
      · rfl
      · simp
    · rw [h]
      cases normalizeAmount s1 <;> rfl
    · rw [h]
      cases hn : normalizeAmount s1
      · rfl
      · simp
  · with_unfolding_all rfl

/-- C3 counterexample: a generative guess carrying an explicit stated
confidence of `0` (a legal `GenerativeFieldGuess` confidence) does not keep
its stated confidence — `confidence || 0.8` treats `0` as absent and the
merged field gets `0.8`. -/
theorem mergeField_zero_conf_counterexample :
    (mergeField [(str "invoicing_party", .nullV)]
        [(str "invoicing_party", .guess (.strV (str "ABC Co")) (some 0))]
        (str "invoicing_party")).confidence = 0.8 ∧
    (0.8 : ℚ) ≠ 0 := by
  constructor
  · with_unfolding_all rfl
  · norm_num

/-- C3 (amended).  Per canonical field: a non-null, non-undefined
deterministic value wins with confidence `0.95` and origin
`direct-mapping`; otherwise a guess object with a truthy value is taken,
with its stated confidence when that is nonzero and `0.8` when the
confidence is unspecified or zero, origin `openai` (the spec's `sourceB`);
otherwise, when the generative entry is absent, the field is `null`,
confidence `0`, origin `none`. -/
theorem mergeField_spec (directMapped : List (Str × Prim))
    (openaiFields : List (Str × GVal)) (field : Str) :
    (∀ p : Prim, jsGet directMapped field = p → p ≠ .nullV → p ≠ .undefV →
      mergeField directMapped openaiFields field =
        ⟨.prim p, 0.95, .directMapping⟩) ∧
    ((jsGet directMapped field = .nullV ∨
        jsGet directMapped field = .undefV) →
      ∀ (gv : Prim) (c : Option ℚ),
        alookup openaiFields field = some (.guess gv c) →
        truthyPrim gv = true →
        mergeField directMapped openaiFields field =
          ⟨.prim gv, if c.getD 0 = 0 then 0.8 else c.getD 0, .openai⟩) ∧
    ((jsGet directMapped field = .nullV ∨
        jsGet directMapped field = .undefV) →
      alookup openaiFields field = none →
      mergeField directMapped openaiFields field =
        ⟨.prim .nullV, 0, .noneSrc⟩) := by
  refine ⟨?_, ?_, ?_⟩
  · intro p hp hn hu
    rw [mergeField, hp, if_pos ⟨hn, hu⟩]
  · intro hd gv c hentry htr
    have hnd : ¬(jsGet directMapped field ≠ .nullV ∧
        jsGet directMapped field ≠ .undefV) := by
      rcases hd with h | h <;> rw [h] <;> simp
    rw [mergeField, hentry, if_neg hnd]
    rw [openaiValueOf, if_pos htr]
    have hval : isNullish (GVal.prim gv) = false := by
      cases gv with
      | nullV => cases htr
      | undefV => cases htr
      | strV s => rfl
      | numV q => rfl
    rw [hval]
    simp only [Bool.not_false, if_pos]
    cases c with
    | none => rfl
    | some q =>
      by_cases hq : q = 0
      · subst hq
        rw [openaiConfOf, if_pos rfl]
        simp
      · rw [openaiConfOf, if_neg hq]
        simp [hq]
  · intro hd hentry
    have hnd : ¬(jsGet directMapped field ≠ .nullV ∧
        jsGet directMapped field ≠ .undefV) := by
      rcases hd with h | h <;> rw [h] <;> simp
    rw [mergeField, hentry, if_neg hnd]
    rfl

/-- C3 witness: the deterministic-wins clause at the spec's Example 3
input, and the generative clause at a guess with stated confidence 0.8. -/
theorem mergeField_spec_witness :
    mergeField [(str "invoicing_party", .strV (str "ABC Co"))]
        [(str "invoicing_party", .guess (.strV (str "ABC Company"))
          (some 0.8))] (str "invoicing_party") =
      ⟨.prim (.strV (str "ABC Co")), 0.95, .directMapping⟩ ∧
    mergeField [(str "invoicing_party", .nullV)]
        [(str "invoicing_party", .guess (.strV (str "ABC Company"))
          (some 0.8))] (str "invoicing_party") =
      ⟨.prim (.strV (str "ABC Company")),
        if (some (0.8 : ℚ)).getD 0 = 0 then 0.8 else (some (0.8 : ℚ)).getD 0,
        .openai⟩ :=
  ⟨(mergeField_spec _ _ _).1 (.strV (str "ABC Co"))
     (by with_unfolding_all rfl) (by simp) (by simp),
   (mergeField_spec _ _ _).2.1 (Or.inl (by with_unfolding_all rfl))
     (.strV (str "ABC Company")) (some 0.8)
     (by with_unfolding_all rfl) (by with_unfolding_all rfl)⟩

/-- C10 witness: the zero-guard clause applied to `"0.00"` vs `"5.00"`. -/
theorem amountsMatch_zero_spec_witness :
    (normalizeAmount (str "0.00") = none ∨
      normalizeAmount (str "0.00") = some 0 ∨
      normalizeAmount (str "5.00") = none ∨
      normalizeAmount (str "5.00") = some 0) ∧
    amountsMatch (str "0.00") (str "5.00") = false :=
  ⟨Or.inr (Or.inl (by with_unfolding_all decide)),
   amountsMatch_zero_spec.1 _ _
     (Or.inr (Or.inl (by with_unfolding_all decide)))⟩

/-- C4.  First-match-wins in `applyFieldMappings`: a pair whose key selects
a mapping with a still-`null` slot fills that slot (with a never-`null`
transformed value), and a pair whose key selects a mapping whose slot is
already filled is dropped entirely — the whole result (mapped record,
unmapped bucket and mapping details) is as if the pair had not been in the
input at all. -/
theorem applyFieldMappings_first_match_wins :
    (∀ (pre : List (Str × Str)) (k v : Str) (m : FieldMapping),
      findFieldMapping k = some m →
      jsGet (applyFieldMappings pre).mapped m.targetField = .nullV →
      jsGet (applyFieldMappings (pre ++ [(k, v)])).mapped m.targetField =
          applyTransform m v ∧
        applyTransform m v ≠ .nullV) ∧
    (∀ (pre post : List (Str × Str)) (k v : Str) (m : FieldMapping),
      findFieldMapping k = some m →
      jsGet (applyFieldMappings pre).mapped m.targetField ≠ .nullV →
      applyFieldMappings (pre ++ (k, v) :: post) =
        applyFieldMappings (pre ++ post)) := by
  constructor
  · intro pre k v m hfind hnull
    have hstep : applyFieldMappings (pre ++ [(k, v)]) =
        fmStep (applyFieldMappings pre) (k, v) := by
      rw [applyFieldMappings, List.foldl_append]
      rfl
    rw [hstep]
    simp only [fmStep, hfind]
    rw [if_pos hnull]
    refine ⟨?_, applyTransform_ne_null m v⟩
    have hkeys : (applyFieldMappings pre).mapped.map Prod.fst =
        initMapped.map Prod.fst :=
      foldl_fmStep_mapped_keys pre ⟨initMapped, [], []⟩
    have hfind2 : FIELD_MAPPINGS.find? (fun m0 =>
        m0.sourceVariations.any fun w =>
          variationMatches (normalizeKey k) w) = some m := hfind
    have hmem : m.targetField ∈ (applyFieldMappings pre).mapped.map
        Prod.fst := by
      rw [hkeys, initMapped, List.map_map]
      exact List.mem_map_of_mem _ (List.mem_of_find?_eq_some hfind2)
    have hsome : (alookup (applyFieldMappings pre).mapped
        m.targetField).isSome :=
      (alookup_isSome_iff _ _).2 hmem
    obtain ⟨w, hw⟩ := Option.isSome_iff_exists.1 hsome
    rw [jsGet, alookup_assocSet_self hw]
    rfl
  · intro pre post k v m hfind hfilled
    have hstep : applyFieldMappings (pre ++ (k, v) :: post) =
        post.foldl fmStep (fmStep (applyFieldMappings pre) (k, v)) := by
      rw [applyFieldMappings, List.foldl_append]
      rfl
    have hstep2 : applyFieldMappings (pre ++ post) =
        post.foldl fmStep (applyFieldMappings pre) := by
      rw [applyFieldMappings, List.foldl_append]
      rfl
    rw [hstep, hstep2]
    have hdrop : fmStep (applyFieldMappings pre) (k, v) =
        applyFieldMappings pre := by
      simp only [fmStep, hfind]
      rw [if_neg hfilled]
    rw [hdrop]

/-- C4 witness: a second `invoicing_party`-matching key (`"supplier"`) after
a first one (`"vendor"`) changes nothing; and the first matching pair does
fill the slot. -/
theorem applyFieldMappings_first_match_wins_witness :
    (jsGet (applyFieldMappings ([] ++ [(str "vendor", str "A")])).mapped
        fmInvoicingParty.targetField =
          applyTransform fmInvoicingParty (str "A") ∧
      applyTransform fmInvoicingParty (str "A") ≠ .nullV) ∧
    applyFieldMappings ([(str "vendor", str "A")] ++
        (str "supplier", str "B") :: []) =
      applyFieldMappings ([(str "vendor", str "A")] ++ []) :=
  ⟨applyFieldMappings_first_match_wins.1 [] (str "vendor") (str "A")
     fmInvoicingParty (by decide) (by decide),
   applyFieldMappings_first_match_wins.2 [(str "vendor", str "A")] []
     (str "supplier") (str "B") fmInvoicingParty (by decide) (by decide)⟩

/-- C5 counterexample: `"subtotal"` is listed as a synonym of
`supplier_invoice_item_amount`, yet mapping the single raw pair
`("subtotal", "50.00")` leaves `supplier_invoice_item_amount` at `null` —
the key is captured first by `invoice_gross_amount`, whose synonym
`"total"` is a substring of `"subtotal"`. -/
theorem findFieldMapping_synonym_counterexample :
    (str "subtotal") ∈ fmItemAmount.sourceVariations ∧
    fmItemAmount ∈ FIELD_MAPPINGS ∧
    fmItemAmount.targetField = str "supplier_invoice_item_amount" ∧
    jsGet (applyFieldMappings [(str "subtotal", str "50.00")]).mapped
      (str "supplier_invoice_item_amount") = .nullV := by
  refine ⟨by decide, by decide, by decide, by decide⟩

/-- C5 (amended).  Mapping a single raw pair whose key is a casing or
whitespace variant of any listed synonym always selects some dictionary
entry — the first entry in declaration order with a matching synonym — and
populates that entry's target field (it is `F` itself only when `F` is that
first match); the pair never lands in the unmapped bucket. -/
theorem findFieldMapping_synonym_spec :
    ∀ fm ∈ FIELD_MAPPINGS, ∀ v ∈ fm.sourceVariations, ∀ k val : Str,
      normalizeKey k = v →
      ∃ m, findFieldMapping k = some m ∧
        jsGet (applyFieldMappings [(k, val)]).mapped m.targetField ≠
          .nullV ∧
        (applyFieldMappings [(k, val)]).unmapped = [] := by
  intro fm hfm v hv k val hnorm
  have hex : ∃ x, x ∈ FIELD_MAPPINGS ∧
      (x.sourceVariations.any fun w =>
        variationMatches (normalizeKey k) w) = true := by
    refine ⟨fm, hfm, ?_⟩
    rw [List.any_eq_true]
    refine ⟨v, hv, ?_⟩
    rw [variationMatches, hnorm, hasSub_refl]
    rfl
  have hsome : (FIELD_MAPPINGS.find? fun m =>
      m.sourceVariations.any fun w =>
        variationMatches (normalizeKey k) w).isSome :=
    List.find?_isSome.2 hex
  obtain ⟨m, hm⟩ := Option.isSome_iff_exists.1 hsome
  have hfind : findFieldMapping k = some m := hm
  have hmem : m ∈ FIELD_MAPPINGS := List.mem_of_find?_eq_some hm
  have hinit : alookup initMapped m.targetField = some .nullV :=
    alookup_initMapped_of_mem hmem
  have hnull0 : jsGet initMapped m.targetField = .nullV := by
    rw [jsGet, hinit]
    rfl
  have hstep : applyFieldMappings [(k, val)] =
      fmStep ⟨initMapped, [], []⟩ (k, val) := rfl
  refine ⟨m, hfind, ?_, ?_⟩
  · rw [hstep]
    simp only [fmStep, hfind]
    rw [if_pos hnull0]
    rw [jsGet, alookup_assocSet_self hinit]
    exact applyTransform_ne_null m val
  · rw [hstep]
    simp only [fmStep, hfind]
    rw [if_pos hnull0]

/-- C5 witness: the amended statement applied to the synonym `"vendor"` of
`invoicing_party` under the casing/whitespace variant `" VENDOR "`. -/
theorem findFieldMapping_synonym_spec_witness :
    ∃ m, findFieldMapping (str " VENDOR ") = some m ∧
      jsGet (applyFieldMappings
          [(str " VENDOR ", str "x")]).mapped m.targetField ≠ .nullV ∧
      (applyFieldMappings [(str " VENDOR ", str "x")]).unmapped = [] :=
  findFieldMapping_synonym_spec fmInvoicingParty (by decide) (str "vendor")
    (by decide) (str " VENDOR ") (str "x") (by decide)

theorem pcv_ok_mem_conflicted {A : TextractResult} {B : OpenAIResult}
    {r : CVResult} {f : Str} {vf : ValidatedField}
    (hok : performCrossValidation A B = .ok r) (hf : f ∈ commonFields)
    (hvf : validateField f A B = .ok (.conflicted vf)) :
    (f, vf) ∈ r.validatedFields ∧ f ∈ r.conflictingFields := by
  rw [performCrossValidation] at hok
  cases hos : pcvOutcomes A B with
  | error e => rw [hos] at hok; cases hok
  | ok os =>
    rw [hos] at hok
    simp only [Except.map] at hok
    cases hok
    have hmem : (f, Outcome.conflicted vf) ∈ os := by
      refine mapExcept_ok_mem hos hf ?_
      rw [hvf]
      rfl
    refine ⟨?_, ?_⟩
    · exact List.mem_filterMap.2 ⟨(f, .conflicted vf), hmem, rfl⟩
    · exact List.mem_filterMap.2 ⟨(f, .conflicted vf), hmem, rfl⟩

/-- C1 (the code, contradicting the spec).  An unparseable date candidate
on one side with a date candidate on the other makes `datesMatch` call
`toISOString` on an Invalid Date, which throws; nothing catches, so
`combine` itself rejects instead of returning a `HybridResult`. -/
theorem combine_throws_on_unparseable_date :
    jsNewDate (str "garbage") = none ∧
    datesMatch (str "garbage") (str "2024-01-15") = .error () ∧
    performCrossValidation exTextractDate exOpenaiDate = .error () ∧
    combine exTextractDate exOpenaiDate = .error () := by
  refine ⟨by decide, rfl, rfl, rfl⟩

/-- C2 counterexample: with an empty deterministic source and a generative
source supplying only `invoice_number`, the one-sided candidate is not
skipped — it is counted as a comparison, recorded as a conflict, and the
agreement score is `0`, not `0.5`. -/
theorem oneSided_candidate_counterexample :
    performCrossValidation exTextractEmpty9 exOpenaiInvNum =
      .ok { agreementScore := 0
            conflictingFields := [str "invoice_number"]
            validatedFields := [(str "invoice_number",
              ⟨none, some (str "INV-1"), some (str "INV-1"), 0.72,
               .openai⟩)] } := by
  with_unfolding_all rfl

/-- C2 (amended).  A field with a candidate from exactly one source is
counted as a comparison and recorded as a non-match: it lands in
`conflictingFields`.  Only fields with no candidate on either side are
skipped, and the agreement score defaults to `0.5` exactly when no field
has a candidate from either source. -/
theorem crossValidation_oneSided_spec :
    (∀ (A : TextractResult) (B : OpenAIResult) (r : CVResult) (f : Str),
      f ∈ commonFields →
      truthyO (extractFieldFromTextract f A) ≠
        truthyO (extractFieldFromOpenAI f B) →
      performCrossValidation A B = .ok r →
      (∃ vf, validateField f A B = .ok (.conflicted vf)) ∧
        f ∈ r.conflictingFields) ∧
    (∀ (A : TextractResult) (B : OpenAIResult),
      (∀ f ∈ commonFields,
        truthyO (extractFieldFromTextract f A) = false ∧
        truthyO (extractFieldFromOpenAI f B) = false) →
      ∃ r, performCrossValidation A B = .ok r ∧
        r.agreementScore = 0.5 ∧ r.conflictingFields = [] ∧
        r.validatedFields = []) := by
  constructor
  · intro A B r f hf hne hok
    have htv : (truthyO (extractFieldFromTextract f A) ||
        truthyO (extractFieldFromOpenAI f B)) = true := by
      cases h1 : truthyO (extractFieldFromTextract f A) <;>
        cases h2 : truthyO (extractFieldFromOpenAI f B) <;>
        simp_all
    have hguard : (!truthyO (extractFieldFromTextract f A) ||
        !truthyO (extractFieldFromOpenAI f B)) = true := by
      cases h1 : truthyO (extractFieldFromTextract f A) <;>
        cases h2 : truthyO (extractFieldFromOpenAI f B) <;>
        simp_all
    have hfm : fieldsMatch (extractFieldFromTextract f A)
        (extractFieldFromOpenAI f B) f = .ok false := by
      rw [fieldsMatch, if_pos hguard]
    have hvf : ∃ vf, validateField f A B = .ok (.conflicted vf) := by
      rw [validateField]
      rw [if_pos htv, hfm]
      by_cases hc : getFieldConfidenceO B < getFieldConfidenceT A
      · exact ⟨_, by rw [if_pos hc]⟩
      · exact ⟨_, by rw [if_neg hc]⟩
    obtain ⟨vf, hvf⟩ := hvf
    exact ⟨⟨vf, hvf⟩, (pcv_ok_mem_conflicted hok hf hvf).2⟩
  · intro A B hall
    have hskip : ∀ f ∈ commonFields, validateField f A B = .ok .skipped := by
      intro f hf
      obtain ⟨h1, h2⟩ := hall f hf
      rw [validateField, h1, h2]
      rfl
    have hout : pcvOutcomes A B =
        .ok (commonFields.map fun f => (f, .skipped)) := by
      refine mapExcept_congr_ok ?_
      intro f hf
      rw [hskip f hf]
      rfl
    refine ⟨outcomesToCV (commonFields.map fun f => (f, .skipped)), ?_,
      ?_, ?_, ?_⟩
    · rw [performCrossValidation, hout]
      rfl
    · with_unfolding_all rfl
    · with_unfolding_all rfl
    · with_unfolding_all rfl

/-- C2 witness: the one-sided clause at the `invoice_number`-only input,
and the all-skipped clause at two empty sources. -/
theorem crossValidation_oneSided_spec_witness :
    ((∃ vf, validateField (str "invoice_number") exTextractEmpty9
        exOpenaiInvNum = .ok (.conflicted vf)) ∧
      (str "invoice_number") ∈
        (outcomesToCV [((str "invoice_number"),
          .conflicted ⟨none, some (str "INV-1"), some (str "INV-1"), 0.72,
            .openai⟩),
          ((str "invoice_date"), .skipped), ((str "due_date"), .skipped),
          ((str "vendor_name"), .skipped), ((str "total_amount"), .skipped),
          ((str "subtotal"), .skipped), ((str "tax_amount"), .skipped),
          ((str "currency"), .skipped)]).conflictingFields) ∧
    (∃ r, performCrossValidation exTextractEmpty exOpenaiEmpty = .ok r ∧
      r.agreementScore = 0.5 ∧ r.conflictingFields = [] ∧
      r.validatedFields = []) := by
  constructor
  · refine crossValidation_oneSided_spec.1 exTextractEmpty9 exOpenaiInvNum _
      (str "invoice_number") (by decide) (by decide) ?_
    with_unfolding_all rfl
  · exact crossValidation_oneSided_spec.2 exTextractEmpty exOpenaiEmpty
      (by decide)

/-- C8.  On a successful run, the agreement score is the number of agreeing
comparisons divided by the number of comparisons made, `0.5` when no
comparison was possible, and always lies in `[0,1]`. -/
theorem agreementScore_spec (A : TextractResult) (B : OpenAIResult)
    (r : CVResult) :
    performCrossValidation A B = .ok r →
      ∃ os, pcvOutcomes A B = .ok os ∧
        r.agreementScore =
          (if 0 < os.countP (fun p => isComparison p.2) then
            ((os.countP fun p => isAgreement p.2 : ℕ) : ℚ) /
              ((os.countP fun p => isComparison p.2 : ℕ) : ℚ)
          else 0.5) ∧
        0 ≤ r.agreementScore ∧ r.agreementScore ≤ 1 := by
  intro hok
  rw [performCrossValidation] at hok
  cases hos : pcvOutcomes A B with
  | error e => rw [hos] at hok; cases hok
  | ok os =>
    rw [hos] at hok
    simp only [Except.map] at hok
    cases hok
    have hle : os.countP (fun p => isAgreement p.2) ≤
        os.countP (fun p => isComparison p.2) := by
      refine List.countP_mono_left ?_
      intro p _ hp
      cases hpo : p.2 <;> simp_all [isAgreement, isComparison]
    refine ⟨os, rfl, rfl, ?_⟩
    show 0 ≤ (outcomesToCV os).agreementScore ∧
      (outcomesToCV os).agreementScore ≤ 1
    rw [outcomesToCV]
    by_cases hpos : 0 < os.countP (fun p => isComparison p.2)
    · simp only [if_pos hpos]
      constructor
      · exact div_nonneg (Nat.cast_nonneg _) (Nat.cast_nonneg _)
      · rw [div_le_one (by exact_mod_cast hpos)]
        exact_mod_cast hle
    · simp only [if_neg hpos]
      norm_num

/-- C8 witness: the theorem applied to two empty sources, where zero
comparisons happen and the score defaults to `0.5`. -/
theorem agreementScore_spec_witness :
    ∃ os, pcvOutcomes exTextractEmpty exOpenaiEmpty = .ok os ∧
      (0.5 : ℚ) =
        (if 0 < os.countP (fun p => isComparison p.2) then
          ((os.countP fun p => isAgreement p.2 : ℕ) : ℚ) /
            ((os.countP fun p => isComparison p.2 : ℕ) : ℚ)
        else 0.5) ∧
      0 ≤ (0.5 : ℚ) ∧ (0.5 : ℚ) ≤ 1 :=
  agreementScore_spec exTextractEmpty exOpenaiEmpty
    ⟨0.5, [], []⟩ (by with_unfolding_all rfl)

/-- C9.  When both extracted candidates exist (at least one truthy) and
fail the type-specific match, the cross-validator records an entry for the
field whose `finalValue` is the candidate of the source with the higher
per-field confidence, whose confidence is that source's confidence times
`0.8`, and the field is appended to `conflictingFields`.  (With equal
confidences the code picks the generative source; the hypothesis rules the
tie out.) -/
theorem crossValidation_conflict_spec (A : TextractResult)
    (B : OpenAIResult) (r : CVResult) (f : Str) :
    f ∈ commonFields →
    performCrossValidation A B = .ok r →
    (truthyO (extractFieldFromTextract f A) ||
      truthyO (extractFieldFromOpenAI f B)) = true →
    fieldsMatch (extractFieldFromTextract f A)
      (extractFieldFromOpenAI f B) f = .ok false →
    getFieldConfidenceT A ≠ getFieldConfidenceO B →
    ∃ vf, (f, vf) ∈ r.validatedFields ∧ f ∈ r.conflictingFields ∧
      vf.finalValue =
        (if getFieldConfidenceO B < getFieldConfidenceT A then
          extractFieldFromTextract f A
        else extractFieldFromOpenAI f B) ∧
      vf.confidence =
        max (getFieldConfidenceT A) (getFieldConfidenceO B) * 0.8 := by
  intro hf hok htv hfm hne
  by_cases hc : getFieldConfidenceO B < getFieldConfidenceT A
  · have hvf : validateField f A B = .ok (.conflicted
        ⟨extractFieldFromTextract f A, extractFieldFromOpenAI f B,
         extractFieldFromTextract f A, getFieldConfidenceT A * 0.8,
         .textract⟩) := by
      rw [validateField, if_pos htv, hfm, if_pos hc]
    obtain ⟨hmem, hconf⟩ := pcv_ok_mem_conflicted hok hf hvf
    refine ⟨_, hmem, hconf, ?_, ?_⟩
    · rw [if_pos hc]
    · rw [max_eq_left hc.le]
  · have hvf : validateField f A B = .ok (.conflicted
        ⟨extractFieldFromTextract f A, extractFieldFromOpenAI f B,
         extractFieldFromOpenAI f B, getFieldConfidenceO B * 0.8,
         .openai⟩) := by
      rw [validateField, if_pos htv, hfm, if_neg hc]
    obtain ⟨hmem, hconf⟩ := pcv_ok_mem_conflicted hok hf hvf
    refine ⟨_, hmem, hconf, ?_, ?_⟩
    · rw [if_neg hc]
    · rw [max_eq_right (not_lt.1 hc)]

/-- C9 witness: the conflict clause at the vendor-name conflict input
(deterministic confidence 0.9 vs generative 0.5). -/
theorem crossValidation_conflict_spec_witness :
    ∃ vf, (str "vendor_name", vf) ∈ exCVVendor.validatedFields ∧
      (str "vendor_name") ∈ exCVVendor.conflictingFields ∧
      vf.finalValue =
        (if getFieldConfidenceO exOpenaiVendor <
            getFieldConfidenceT exTextractVendor then
          extractFieldFromTextract (str "vendor_name") exTextractVendor
        else extractFieldFromOpenAI (str "vendor_name") exOpenaiVendor) ∧
      vf.confidence =
        max (getFieldConfidenceT exTextractVendor)
          (getFieldConfidenceO exOpenaiVendor) * 0.8 :=
  crossValidation_conflict_spec exTextractVendor exOpenaiVendor exCVVendor
    (str "vendor_name") (by decide) (by with_unfolding_all rfl)
    (by decide) (by with_unfolding_all rfl)
    (by with_unfolding_all decide)

end Fluxity
